import Mathlib

/-!
# Catalogue and cart of the storefront (`src/app.js`)

A shallow embedding of the classes `Producto`, `BaseDeDatos` and `Carrito`.

Modelling conventions.

* Prices and the price total are JavaScript numbers of any kind (catalogue data): they live in
  a type `ν` whose arithmetic (`0`, `+`, price times quantity) is a parameter, `Aritmetica ν`.
  Every general theorem holds for every arithmetic, IEEE-754 doubles included. The concrete
  evaluations use `binario64`, finite doubles as dyadic numbers with rounding to nearest, ties
  to even.
* Identifiers and quantities are integers (`Int`): the code creates a quantity as `1` and
  moves it by one.
* A JavaScript string is a Lean `String`. `String.prototype.toLowerCase` is a parameter of the
  methods that call it; `includes` is the contiguous-substring test. The concrete evaluations
  use `minusculas`, which lowers `A`-`Z` and the Latin-1 capitals.
* The `carrito` key of `localStorage` is an `Almacen`: absent, or a stored text. A stored text is
  described by what `JSON.parse` makes of it: a text that is not JSON, or the JSON value it
  denotes. `JSON.stringify` of a cart is the text that parses back to that cart.
* A thrown exception is a `Falla`; a method that can throw returns the outcome together with
  the state it leaves behind.
* The DOM (the rendered markup, the hidden class of the buy button, the click handlers) and the
  Toastify / SweetAlert calls are not part of the state.
-/

namespace Tienda

/-! ## Data model -/

/-- The arithmetic of JavaScript numbers the code uses on prices: the number `0`, the sum
`x + y`, and the product `precio * cantidad`. -/
structure Aritmetica (ν : Type) where
  cero : ν
  mas : ν → ν → ν
  por : ν → Int → ν

/-- Class `Producto` (app.js 1-9). `imagen` is `none` for the default `false`. -/
structure Producto (ν : Type) where
  id : Int
  nombre : String
  precio : ν
  categoria : String
  imagen : Option String
  deriving DecidableEq, Repr

/-- A cart entry, the object `{ ...producto, cantidad }` built in `agregar` (app.js 154). -/
structure Item (ν : Type) extends Producto ν where
  cantidad : Int
  deriving DecidableEq, Repr

/-- Class `BaseDeDatos` (app.js 13-17): the array `productos`. -/
structure BaseDeDatos (ν : Type) where
  productos : List (Producto ν)
  deriving DecidableEq, Repr

/-- The exceptions the modelled code can throw. -/
inductive Falla where
  | syntaxError
  | typeError
  deriving DecidableEq, Repr

/-- A JSON value as the constructor of `Carrito` can meet it: `null`, a boolean, a number (of
which the code only tests whether it is zero), a string, an object that is not an array, an
array of cart entries, or an array with an element that is not a cart entry. -/
inductive ValorJson (ν : Type) where
  | nulo
  | booleano (b : Bool)
  | numero (esCero : Bool)
  | texto (s : String)
  | objeto
  | lista (es : List (Item ν))
  | listaAjena
  deriving DecidableEq, Repr

/-- A text stored under a key: one that `JSON.parse` rejects, or the text of a JSON value. -/
inductive Contenido (ν : Type) where
  | ilegible
  | json (v : ValorJson ν)
  deriving DecidableEq, Repr

/-- The `carrito` key of `localStorage`: `none` when the key is absent. -/
abbrev Almacen (ν : Type) := Option (Contenido ν)

/-- The fields of a `Carrito` instance together with the storage key it persists to. -/
structure Estado (ν : Type) where
  carrito : List (Item ν)
  total : ν
  totalProductos : Int
  almacen : Almacen ν
  deriving DecidableEq, Repr

/-- What running the constructor of `Carrito` ends in.
* `lanza f`: it throws `f`, no object is constructed.
* `carrito s`: an object whose `carrito` field is a list of cart entries, in state `s`.
* `cadena t`: an object whose `carrito` field is the non-empty string `t`; `listar` has read
  `precio` and `cantidad` off its characters and both totals are `NaN`.
* `ajena`: the stored array has an element that is not a cart entry; what `listar` does with it
  (a `TypeError` on a `null` element, totals that are not numbers otherwise) is not described. -/
inductive Construccion (ν : Type) where
  | lanza (f : Falla)
  | carrito (s : Estado ν)
  | cadena (t : String)
  | ajena
  deriving DecidableEq, Repr

/-! ## Platform functions used by the code -/

/-- Platform method `String.prototype.includes`: `t` occurs in `s` as a contiguous substring. -/
def includes (s t : String) : Bool := decide (t.data <:+: s.data)

/-- Platform method `Array.prototype.findIndex`: the index of the first element satisfying
`f`, `-1` if none. -/
def findIndex {α : Type} (f : α → Bool) : List α → Int
  | [] => -1
  | x :: xs =>
    if f x then 0
    else
      let r := findIndex f xs
      if r < 0 then -1 else r + 1

/-- Array indexing `xs[i]`: `none` (JavaScript `undefined`) outside `0 .. length - 1`. -/
def elemento {α : Type} (xs : List α) (i : Int) : Option α :=
  if i < 0 then none else xs[i.toNat]?

/-- Platform call `localStorage.getItem("carrito")`: `null` (`none`) when the key is absent. -/
def getItem {ν : Type} (a : Almacen ν) : Option (Contenido ν) := a

/-- Platform function `JSON.parse`: `null` is coerced to the text `null`; a text that is not
JSON throws. -/
def jsonParse {ν : Type} : Option (Contenido ν) → Except Falla (ValorJson ν)
  | none => .ok .nulo
  | some .ilegible => .error .syntaxError
  | some (.json v) => .ok v

/-- JavaScript truthiness, as `||` tests it: `null`, `false`, `0` and the empty string are
falsy, every object and array is truthy. -/
def esVerdadero {ν : Type} : ValorJson ν → Bool
  | .nulo => false
  | .booleano b => b
  | .numero esCero => !esCero
  | .texto s => s != ""
  | .objeto => true
  | .lista _ => true
  | .listaAjena => true

/-! ## `BaseDeDatos` -/

/-- Method `registrosPorNombre` (app.js 35-37). -/
def registrosPorNombre {ν : Type} (toLowerCase : String → String) (bd : BaseDeDatos ν)
    (palabra : String) : List (Producto ν) :=
  bd.productos.filter (fun producto => includes (toLowerCase producto.nombre) palabra)

/-- The `keyup` handler of the search box (app.js 251-259): the products handed to
`cargarProductos` for the input value `valor`. -/
def buscar {ν : Type} (toLowerCase : String → String) (bd : BaseDeDatos ν) (valor : String) :
    List (Producto ν) :=
  registrosPorNombre toLowerCase bd (toLowerCase valor)

/-! ## `Carrito` -/

/-- The loop of `listar` (app.js 181-200): both totals restart at zero and accumulate over the
cart in order. The result is the pair `(total, totalProductos)`. -/
def totales {ν : Type} (A : Aritmetica ν) (carrito : List (Item ν)) : ν × Int :=
  carrito.foldl
    (fun acc producto =>
      (A.mas acc.1 (A.por producto.precio producto.cantidad), acc.2 + producto.cantidad))
    (A.cero, 0)

/-- Method `listar` (app.js 179-222), without the rendering. -/
def listar {ν : Type} (A : Aritmetica ν) (s : Estado ν) : Estado ν :=
  { s with total := (totales A s.carrito).1, totalProductos := (totales A s.carrito).2 }

/-- Method `estaEnCarrito` (app.js 174-176). -/
def estaEnCarrito {ν : Type} (s : Estado ν) (producto : Producto ν) : Option (Item ν) :=
  s.carrito.find? (fun p => p.id == producto.id)

/-- The effect of `productoEnCarrito.cantidad++` (app.js 151) on the array: the object that
`find` returned is the first one with that id, and it is updated in place. -/
def incrementar {ν : Type} (id : Int) : List (Item ν) → List (Item ν)
  | [] => []
  | e :: es =>
    if e.id == id then { e with cantidad := e.cantidad + 1 } :: es
    else e :: incrementar id es

/-- Method `agregar` (app.js 146-170), without the toast. -/
def agregar {ν : Type} (A : Aritmetica ν) (producto : Producto ν) (s : Estado ν) : Estado ν :=
  let carrito :=
    match estaEnCarrito s producto with
    | some _ => incrementar producto.id s.carrito
    | none => s.carrito ++ [{ toProducto := producto, cantidad := 1 }]
  listar A { s with carrito := carrito, almacen := some (.json (.lista carrito)) }

/-- Method `quitar` (app.js 225-240). Reading `.cantidad` of `undefined` throws a `TypeError`
at line 230, before any assignment. -/
def quitar {ν : Type} (A : Aritmetica ν) (id : Int) (s : Estado ν) :
    Except Falla Unit × Estado ν :=
  let indice := findIndex (fun producto : Item ν => producto.id == id) s.carrito
  match elemento s.carrito indice with
  | none => (.error .typeError, s)
  | some e =>
    let carrito :=
      if e.cantidad > 1 then s.carrito.set indice.toNat { e with cantidad := e.cantidad - 1 }
      else s.carrito.eraseIdx indice.toNat
    (.ok (), listar A { s with carrito := carrito, almacen := some (.json (.lista carrito)) })

/-- Method `vaciar` (app.js 243-247). -/
def vaciar {ν : Type} (A : Aritmetica ν) (s : Estado ν) : Estado ν :=
  listar A { s with carrito := [], almacen := none }

/-- Lines 135 and 137 of the constructor: the value `JSON.parse(localStorage.getItem("carrito"))
|| []` that becomes `this.carrito`. `JSON.parse` may throw. -/
def leerCarrito {ν : Type} (a : Almacen ν) : Except Falla (ValorJson ν) :=
  match jsonParse (getItem a) with
  | .error f => .error f
  | .ok carritoStorage =>
    .ok (if esVerdadero carritoStorage then carritoStorage else ValorJson.lista [])

/-- The constructor of `Carrito` (app.js 133-143), run against the storage `a`. The
`for ... of` loop of `listar` runs over a list and over the characters of a string, and throws
a `TypeError` on a value that is not iterable (`true`, a number, an object that is not an
array). -/
def nuevo {ν : Type} (A : Aritmetica ν) (a : Almacen ν) : Construccion ν :=
  match leerCarrito a with
  | .error f => .lanza f
  | .ok (.lista es) =>
    .carrito (listar A { carrito := es, total := A.cero, totalProductos := 0, almacen := a })
  | .ok (.texto t) => .cadena t
  | .ok .listaAjena => .ajena
  | .ok _ => .lanza .typeError

/-- The state after `n` consecutive calls `agregar(producto)`. -/
def agregarVeces {ν : Type} (A : Aritmetica ν) (n : Nat) (producto : Producto ν)
    (s : Estado ν) : Estado ν :=
  (agregar A producto)^[n] s

/-! ## Vocabulary of the properties -/

/-- Sum of `cantidad` over the entries of a cart. -/
def sumaCantidades {ν : Type} (c : List (Item ν)) : Int := (c.map (fun e => e.cantidad)).sum

/-- Sum of `precio * cantidad` over the entries of a cart in the arithmetic `A`: the products
are added in cart order, starting from `0`. -/
def sumaImportes {ν : Type} (A : Aritmetica ν) (c : List (Item ν)) : ν :=
  (c.map (fun e => A.por e.precio e.cantidad)).foldl A.mas A.cero

/-- The totals of the state are the ones of its cart. -/
def AlDia {ν : Type} (A : Aritmetica ν) (s : Estado ν) : Prop :=
  s.totalProductos = sumaCantidades s.carrito ∧ s.total = sumaImportes A s.carrito

/-- Totals and storage agree with the cart: the totals are the sums over the entries, and
reading the storage back (an absent key reads as the empty cart) gives the cart. -/
def Coherente {ν : Type} (A : Aritmetica ν) (s : Estado ν) : Prop :=
  AlDia A s ∧ leerCarrito s.almacen = .ok (.lista s.carrito)

/-- The quantity a cart holds of a product id: the `cantidad` of its entry, `0` without one. -/
def cantidadDe {ν : Type} (id : Int) (c : List (Item ν)) : Int :=
  match c.find? (fun e => e.id == id) with
  | some e => e.cantidad
  | none => 0

/-- At most one entry per product id, and every `cantidad` at least one. -/
def BienFormado {ν : Type} (c : List (Item ν)) : Prop :=
  (c.map (fun e => e.id)).Nodup ∧ ∀ e ∈ c, 1 ≤ e.cantidad

/-- The states reachable from an empty cart through `agregar`, `quitar` and `vaciar`. A call
of `quitar` that throws leaves the state as it was. -/
inductive Alcanzable {ν : Type} (A : Aritmetica ν) : Estado ν → Prop where
  | vacio (s : Estado ν) (h : s.carrito = []) : Alcanzable A s
  | agregar (producto : Producto ν) (s : Estado ν) (h : Alcanzable A s) :
      Alcanzable A (agregar A producto s)
  | quitar (id : Int) (s : Estado ν) (h : Alcanzable A s) : Alcanzable A (quitar A id s).2
  | vaciar (s : Estado ν) (h : Alcanzable A s) : Alcanzable A (vaciar A s)

/-- The cart `quitar` leaves when the first entry with the id is `e`, between `ant` and
`post`. -/
def trasQuitar {ν : Type} (ant : List (Item ν)) (e : Item ν) (post : List (Item ν)) :
    List (Item ν) :=
  if e.cantidad > 1 then ant ++ { e with cantidad := e.cantidad - 1 } :: post else ant ++ post

/-! ## Double arithmetic for the concrete evaluations -/

/-- A dyadic number `mantisa * 2 ^ exponente`, kept with an odd mantissa (or as `0 * 2 ^ 0`).
A finite double is a dyadic number whose mantissa is below `2 ^ 53` in absolute value. -/
structure Diadico where
  mantisa : Int
  exponente : Int
  deriving DecidableEq, Repr

/-- Halve `n` while it is even, counting the halvings into the exponent `e`; `fuel` bounds the
number of steps. -/
def quitarCeros : Nat → Nat → Int → Nat × Int
  | 0, n, e => (n, e)
  | fuel + 1, n, e => if n % 2 = 0 then quitarCeros fuel (n / 2) (e + 1) else (n, e)

/-- The dyadic number `m * 2 ^ e` in its normal form. -/
def normal (m : Int) (e : Int) : Diadico :=
  if m = 0 then ⟨0, 0⟩
  else ⟨m.sign * (quitarCeros m.natAbs m.natAbs e).1, (quitarCeros m.natAbs m.natAbs e).2⟩

/-- The number of halvings that bring `n` below `2 ^ 53`; `fuel` bounds the number of steps. -/
def exceso : Nat → Nat → Nat
  | 0, _ => 0
  | fuel + 1, n => if n < 2 ^ 53 then 0 else exceso fuel (n / 2) + 1

/-- Rounding of a dyadic number to a 53-bit mantissa, to nearest, ties to even (the exponent
range of doubles is not bounded here). -/
def redondear (x : Diadico) : Diadico :=
  let n := x.mantisa.natAbs
  let d := exceso n n
  if d = 0 then normal x.mantisa x.exponente
  else
    let q := n / 2 ^ d
    let r := n % 2 ^ d
    let mitad := 2 ^ (d - 1)
    let q2 := if r > mitad ∨ (r = mitad ∧ q % 2 = 1) then q + 1 else q
    normal (x.mantisa.sign * q2) (x.exponente + d)

/-- The exact sum of two dyadic numbers. -/
def sumaDiadica (x y : Diadico) : Diadico :=
  normal
    (x.mantisa * 2 ^ (x.exponente - min x.exponente y.exponente).toNat
      + y.mantisa * 2 ^ (y.exponente - min x.exponente y.exponente).toNat)
    (min x.exponente y.exponente)

/-- The exact product of a dyadic number and an integer. -/
def porDiadico (x : Diadico) (k : Int) : Diadico := normal (x.mantisa * k) x.exponente

/-- Exact arithmetic on dyadic numbers: no rounding. -/
def exacta : Aritmetica Diadico := ⟨⟨0, 0⟩, sumaDiadica, porDiadico⟩

/-- Double arithmetic on finite values: every sum and product is rounded. -/
def binario64 : Aritmetica Diadico :=
  ⟨⟨0, 0⟩, fun x y => redondear (sumaDiadica x y), fun x k => redondear (porDiadico x k)⟩

/-- The double of an integer below `2 ^ 53`. -/
def entero (k : Int) : Diadico := normal k 0

/-- The double nearest to `0.1`, which is `3602879701896397 / 2 ^ 55`. -/
def decima : Diadico := ⟨3602879701896397, -55⟩

/-! ## Lowering for the concrete evaluations -/

/-- The lower-case letter of `A`-`Z` and of the Latin-1 capitals (`U+00C0`-`U+00DE` without the
multiplication sign), every other character unchanged. -/
def minuscula (c : Char) : Char :=
  if (65 ≤ c.toNat ∧ c.toNat ≤ 90) ∨ (192 ≤ c.toNat ∧ c.toNat ≤ 222 ∧ c.toNat ≠ 215) then
    Char.ofNat (c.toNat + 32)
  else c

/-- Lowering of a text, character by character, with `minuscula`. -/
def minusculas (s : String) : String := ⟨s.data.map minuscula⟩

/-! ## Concrete data of the scenarios -/

/-- The product `Mouse` of the scenario catalogue. -/
def mouse : Producto Diadico := ⟨1, "Mouse", entero 10, "Tech", none⟩

/-- The product `Mug` of the scenario catalogue. -/
def mug : Producto Diadico := ⟨2, "Mug", entero 5, "Home", none⟩

/-- A product with an accented name in capitals. -/
def cafe : Producto Diadico := ⟨3, "CAFÉ", entero 4, "Home", none⟩

/-- A product priced `0.1`. -/
def caramelo : Producto Diadico := ⟨4, "Caramelo", decima, "Home", none⟩

/-- A cart of two entries priced `2 ^ 53` and `1`, one of each. -/
def carritoGrande : List (Item Diadico) :=
  [{ id := 5, nombre := "Grande", precio := entero 9007199254740992, categoria := "Home",
     imagen := none, cantidad := 1 },
   { id := 6, nombre := "Unidad", precio := entero 1, categoria := "Home",
     imagen := none, cantidad := 1 }]

/-- The scenario catalogue. -/
def catalogo : BaseDeDatos Diadico := ⟨[mouse, mug]⟩

/-- A catalogue with an accented name. -/
def catalogoCafe : BaseDeDatos Diadico := ⟨[cafe, mug]⟩

/-- A state with an empty cart and nothing persisted. -/
def estadoVacio : Estado Diadico := ⟨[], entero 0, 0, none⟩

/-- The cart of the scenario after two `agregar(mouse)`: one entry, `cantidad` 2. -/
def estadoDosMouse : Estado Diadico :=
  ⟨[{ toProducto := mouse, cantidad := 2 }], entero 20, 2,
    some (.json (.lista [{ toProducto := mouse, cantidad := 2 }]))⟩

/-- A state whose cart holds three `mug` and nothing else. -/
def estadoTresMug : Estado Diadico :=
  ⟨[{ toProducto := mug, cantidad := 3 }], entero 15, 3,
    some (.json (.lista [{ toProducto := mug, cantidad := 3 }]))⟩

/-- The state the constructor builds on a persisted cart with three `caramelo`: the total is
the double `0.30000000000000004`, which is `1351079888211149 / 2 ^ 52`. -/
def estadoTresCaramelo : Estado Diadico :=
  ⟨[{ toProducto := caramelo, cantidad := 3 }], ⟨1351079888211149, -52⟩, 3,
    some (.json (.lista [{ toProducto := caramelo, cantidad := 3 }]))⟩

/-! ## Lemmas on the platform functions -/

theorem foldl_totales {ν : Type} (A : Aritmetica ν) (c : List (Item ν)) (a : ν) (b : Int) :
    c.foldl
      (fun acc producto =>
        (A.mas acc.1 (A.por producto.precio producto.cantidad), acc.2 + producto.cantidad))
      (a, b)
      = ((c.map (fun e => A.por e.precio e.cantidad)).foldl A.mas a, b + sumaCantidades c) := by
  induction c generalizing a b with
  | nil => simp [sumaCantidades]
  | cons e es ih =>
    simp only [List.foldl_cons, ih, sumaCantidades, List.map_cons, List.sum_cons]
    ext
    · rfl
    · simp only
      ring

theorem totales_eq {ν : Type} (A : Aritmetica ν) (c : List (Item ν)) :
    totales A c = (sumaImportes A c, sumaCantidades c) := by
  unfold totales
  rw [foldl_totales]
  simp [sumaImportes]

theorem listar_alDia {ν : Type} (A : Aritmetica ν) (s : Estado ν) : AlDia A (listar A s) := by
  simp [AlDia, listar, totales_eq]

theorem findIndex_ausente {α : Type} (f : α → Bool) (xs : List α)
    (h : ∀ x ∈ xs, f x = false) : findIndex f xs = -1 := by
  induction xs with
  | nil => rfl
  | cons x xs ih =>
    have hx : f x = false := h x (List.mem_cons_self _ _)
    have hxs : findIndex f xs = -1 := ih (fun y hy => h y (List.mem_cons_of_mem _ hy))
    simp [findIndex, hx, hxs]

theorem findIndex_primero {α : Type} (f : α → Bool) (ant : List α) (e : α) (post : List α)
    (h : ∀ x ∈ ant, f x = false) (he : f e = true) :
    findIndex f (ant ++ e :: post) = (ant.length : Int) := by
  induction ant with
  | nil => simp [findIndex, he]
  | cons x xs ih =>
    have hx : f x = false := h x (List.mem_cons_self _ _)
    have hxs := ih (fun y hy => h y (List.mem_cons_of_mem _ hy))
    have hneg : ¬ ((xs.length : Int) < 0) := by omega
    simp [findIndex, hx, hxs, hneg]

theorem elemento_medio {α : Type} (ant : List α) (e : α) (post : List α) :
    elemento (ant ++ e :: post) (ant.length : Int) = some e := by
  have hneg : ¬ ((ant.length : Int) < 0) := by omega
  have hget : (ant ++ e :: post)[ant.length]? = some e := by
    rw [List.getElem?_append_right (Nat.le_refl _)]
    simp
  simp only [elemento, hneg, if_false, Int.toNat_ofNat, hget]

theorem set_medio {α : Type} (ant : List α) (e e2 : α) (post : List α) :
    (ant ++ e :: post).set ant.length e2 = ant ++ e2 :: post := by
  induction ant with
  | nil => rfl
  | cons x xs ih => simp [List.set, ih]

theorem eraseIdx_medio {α : Type} (ant : List α) (e : α) (post : List α) :
    (ant ++ e :: post).eraseIdx ant.length = ant ++ post := by
  induction ant with
  | nil => rfl
  | cons x xs ih => simp [List.eraseIdx, ih]

/-- A list with an element satisfying `f` splits at the first such element. -/
theorem partir_en_primero {α : Type} (f : α → Bool) (xs : List α)
    (h : ∃ x ∈ xs, f x = true) :
    ∃ ant e post, xs = ant ++ e :: post ∧ f e = true ∧ ∀ x ∈ ant, f x = false := by
  induction xs with
  | nil => simp at h
  | cons x xs ih =>
    by_cases hx : f x = true
    · exact ⟨[], x, xs, rfl, hx, by simp⟩
    · have hx2 : f x = false := by simpa using hx
      obtain ⟨y, hy, hfy⟩ := h
      have hy2 : y ∈ xs := by
        rcases List.mem_cons.mp hy with rfl | hmem
        · exact absurd hfy hx
        · exact hmem
      obtain ⟨ant, e, post, hsplit, he, hant⟩ := ih ⟨y, hy2, hfy⟩
      refine ⟨x :: ant, e, post, by simp [hsplit], he, ?_⟩
      intro z hz
      rcases List.mem_cons.mp hz with rfl | hmem
      · exact hx2
      · exact hant z hmem

/-! ## Lemmas on the cart methods -/

theorem quitar_en_primero {ν : Type} (A : Aritmetica ν) (id : Int) (s : Estado ν)
    (ant : List (Item ν)) (e : Item ν) (post : List (Item ν))
    (hs : s.carrito = ant ++ e :: post) (he : e.id = id) (hant : ∀ x ∈ ant, x.id ≠ id) :
    quitar A id s =
      (.ok (), listar A { s with
        carrito := trasQuitar ant e post,
        almacen := some (.json (.lista (trasQuitar ant e post))) }) := by
  have hidx : findIndex (fun producto : Item ν => producto.id == id) (ant ++ e :: post)
      = (ant.length : Int) :=
    findIndex_primero _ ant e post (fun x hx => by simpa using hant x hx) (by simpa using he)
  unfold quitar
  simp only [hs, hidx, elemento_medio, Int.toNat_ofNat, set_medio, eraseIdx_medio, trasQuitar]

theorem quitar_sin_entrada {ν : Type} (A : Aritmetica ν) (id : Int) (s : Estado ν)
    (h : ∀ e ∈ s.carrito, e.id ≠ id) :
    quitar A id s = (.error .typeError, s) := by
  have hidx : findIndex (fun producto : Item ν => producto.id == id) s.carrito = -1 :=
    findIndex_ausente _ _ (fun x hx => by simpa using h x hx)
  unfold quitar
  simp [hidx, elemento]

theorem quitar_casos {ν : Type} (A : Aritmetica ν) (id : Int) (s : Estado ν) :
    quitar A id s = (.error .typeError, s) ∨
      ∃ c, quitar A id s
        = (.ok (), listar A { s with carrito := c, almacen := some (.json (.lista c)) }) := by
  cases hel : elemento s.carrito
      (findIndex (fun producto : Item ν => producto.id == id) s.carrito) with
  | none =>
    left
    simp only [quitar, hel]
  | some e =>
    right
    refine ⟨if e.cantidad > 1 then
        s.carrito.set (findIndex (fun producto : Item ν => producto.id == id) s.carrito).toNat
          { e with cantidad := e.cantidad - 1 }
      else s.carrito.eraseIdx
        (findIndex (fun producto : Item ν => producto.id == id) s.carrito).toNat, ?_⟩
    simp only [quitar, hel]

theorem find_en_primero {ν : Type} (id : Int) (ant : List (Item ν)) (e : Item ν)
    (post : List (Item ν)) (he : e.id = id) (hant : ∀ x ∈ ant, x.id ≠ id) :
    (ant ++ e :: post).find? (fun p => p.id == id) = some e := by
  induction ant with
  | nil => simp [he]
  | cons x xs ih =>
    have hx : x.id ≠ id := hant x (List.mem_cons_self _ _)
    have hxs := ih (fun y hy => hant y (List.mem_cons_of_mem _ hy))
    have hb : (x.id == id) = false := by simpa using hx
    rw [List.cons_append, List.find?_cons, hb]
    exact hxs

theorem find_sin_entrada {ν : Type} (id : Int) (c : List (Item ν)) (h : ∀ x ∈ c, x.id ≠ id) :
    c.find? (fun p => p.id == id) = none := by
  simpa using h

theorem incrementar_en_primero {ν : Type} (id : Int) (ant : List (Item ν)) (e : Item ν)
    (post : List (Item ν)) (he : e.id = id) (hant : ∀ x ∈ ant, x.id ≠ id) :
    incrementar id (ant ++ e :: post) = ant ++ { e with cantidad := e.cantidad + 1 } :: post := by
  induction ant with
  | nil => simp [incrementar, he]
  | cons x xs ih =>
    have hx : x.id ≠ id := hant x (List.mem_cons_self _ _)
    have hxs := ih (fun y hy => hant y (List.mem_cons_of_mem _ hy))
    simp [incrementar, hx, hxs]

theorem agregar_presente {ν : Type} (A : Aritmetica ν) (p : Producto ν) (s : Estado ν)
    (ant : List (Item ν)) (e : Item ν) (post : List (Item ν))
    (hs : s.carrito = ant ++ e :: post) (he : e.id = p.id) (hant : ∀ x ∈ ant, x.id ≠ p.id) :
    agregar A p s =
      listar A { s with
        carrito := ant ++ { e with cantidad := e.cantidad + 1 } :: post,
        almacen := some (.json (.lista (ant ++ { e with cantidad := e.cantidad + 1 } :: post))) }
    := by
  unfold agregar estaEnCarrito
  simp only [hs, find_en_primero p.id ant e post he hant,
    incrementar_en_primero p.id ant e post he hant]

theorem agregar_ausente {ν : Type} (A : Aritmetica ν) (p : Producto ν) (s : Estado ν)
    (h : ∀ x ∈ s.carrito, x.id ≠ p.id) :
    agregar A p s =
      listar A { s with
        carrito := s.carrito ++ [{ toProducto := p, cantidad := 1 }],
        almacen := some (.json (.lista (s.carrito ++ [{ toProducto := p, cantidad := 1 }]))) }
    := by
  unfold agregar estaEnCarrito
  simp only [find_sin_entrada p.id s.carrito h]

theorem partir_por_id {ν : Type} (id : Int) (c : List (Item ν)) (h : ∃ e ∈ c, e.id = id) :
    ∃ ant e post, c = ant ++ e :: post ∧ e.id = id ∧ ∀ x ∈ ant, x.id ≠ id := by
  obtain ⟨ant, e, post, hc, he, hant⟩ :=
    partir_en_primero (fun x : Item ν => x.id == id) c
      (by obtain ⟨e, hm, he⟩ := h; exact ⟨e, hm, by simpa using he⟩)
  exact ⟨ant, e, post, hc, by simpa using he, fun x hx => by simpa using hant x hx⟩

theorem agregar_alDia {ν : Type} (A : Aritmetica ν) (p : Producto ν) (s : Estado ν) :
    AlDia A (agregar A p s) := by
  unfold agregar
  exact listar_alDia A _

theorem agregarVeces_succ {ν : Type} (A : Aritmetica ν) (n : Nat) (p : Producto ν)
    (s : Estado ν) :
    agregarVeces A (n + 1) p s = agregarVeces A n p (agregar A p s) := by
  simp [agregarVeces]

theorem agregarVeces_succ_fuera {ν : Type} (A : Aritmetica ν) (n : Nat) (p : Producto ν)
    (s : Estado ν) :
    agregarVeces A (n + 1) p s = agregar A p (agregarVeces A n p s) := by
  simp only [agregarVeces, Function.iterate_succ_apply']

theorem agregarVeces_presente {ν : Type} (A : Aritmetica ν) (p : Producto ν) (n : Nat) :
    ∀ (s : Estado ν) (ant : List (Item ν)) (e : Item ν) (post : List (Item ν)),
      s.carrito = ant ++ e :: post → e.id = p.id → (∀ x ∈ ant, x.id ≠ p.id) →
      (agregarVeces A n p s).carrito
        = ant ++ { e with cantidad := e.cantidad + n } :: post := by
  induction n with
  | zero =>
    intro s ant e post hs _ _
    simp [agregarVeces, hs]
  | succ m ih =>
    intro s ant e post hs he hant
    rw [agregarVeces_succ]
    have h1 : (agregar A p s).carrito
        = ant ++ { e with cantidad := e.cantidad + 1 } :: post := by
      rw [agregar_presente A p s ant e post hs he hant]
      rfl
    rw [ih (agregar A p s) ant { e with cantidad := e.cantidad + 1 } post h1 he hant]
    have hsum : e.cantidad + 1 + (m : Int) = e.cantidad + ((m + 1 : Nat) : Int) := by
      push_cast
      ring
    simp only [hsum]

theorem agregarVeces_ausente {ν : Type} (A : Aritmetica ν) (p : Producto ν) (n : Nat)
    (s : Estado ν) (hn : 1 ≤ n) (h : ∀ x ∈ s.carrito, x.id ≠ p.id) :
    (agregarVeces A n p s).carrito = s.carrito ++ [{ toProducto := p, cantidad := n }] := by
  obtain ⟨m, rfl⟩ : ∃ m, n = m + 1 := ⟨n - 1, by omega⟩
  rw [agregarVeces_succ]
  have h1 : (agregar A p s).carrito
      = s.carrito ++ { toProducto := p, cantidad := 1 } :: [] := by
    rw [agregar_ausente A p s h]
    rfl
  rw [agregarVeces_presente A p m (agregar A p s) s.carrito { toProducto := p, cantidad := 1 } []
    h1 rfl h]
  have hsum : (1 : Int) + (m : Int) = ((m + 1 : Nat) : Int) := by
    push_cast
    ring
  simp only [hsum]

theorem unico_libre {ν : Type} (id : Int) (ant : List (Item ν)) (e : Item ν)
    (post : List (Item ν)) (hu : ((ant ++ e :: post).map (fun x => x.id)).Nodup)
    (he : e.id = id) :
    (∀ x ∈ ant, x.id ≠ id) ∧ (∀ x ∈ post, x.id ≠ id) := by
  simp only [List.map_append, List.map_cons] at hu
  rw [List.nodup_append] at hu
  obtain ⟨_, hpost, hdis⟩ := hu
  rw [List.nodup_cons] at hpost
  constructor
  · intro x hx hxid
    have h1 : x.id ∈ ant.map (fun x => x.id) := List.mem_map_of_mem _ hx
    have h2 : x.id ∈ e.id :: post.map (fun x => x.id) := by
      rw [hxid, he]
      exact List.mem_cons_self _ _
    exact hdis h1 h2
  · intro x hx hxid
    apply hpost.1
    rw [he, ← hxid]
    exact List.mem_map_of_mem _ hx

theorem filtro_unico {ν : Type} (id : Int) (ant : List (Item ν)) (e : Item ν)
    (post : List (Item ν)) (he : e.id = id) (hant : ∀ x ∈ ant, x.id ≠ id)
    (hpost : ∀ x ∈ post, x.id ≠ id) :
    (ant ++ e :: post).filter (fun x => x.id == id) = [e] := by
  have h1 : ant.filter (fun x => x.id == id) = [] := by
    simpa [List.filter_eq_nil_iff] using hant
  have h2 : post.filter (fun x => x.id == id) = [] := by
    simpa [List.filter_eq_nil_iff] using hpost
  have h3 : (e.id == id) = true := by simpa using he
  rw [List.filter_append, List.filter_cons, h1, h2, h3]
  rfl

theorem sumaCantidades_medio {ν : Type} (ant : List (Item ν)) (e e2 : Item ν)
    (post : List (Item ν)) :
    sumaCantidades (ant ++ e2 :: post)
      = sumaCantidades (ant ++ e :: post) + (e2.cantidad - e.cantidad) := by
  simp only [sumaCantidades, List.map_append, List.map_cons, List.sum_append, List.sum_cons]
  ring

theorem cantidadDe_primero {ν : Type} (id : Int) (ant : List (Item ν)) (e : Item ν)
    (post : List (Item ν)) (he : e.id = id) (hant : ∀ x ∈ ant, x.id ≠ id) :
    cantidadDe id (ant ++ e :: post) = e.cantidad := by
  simp only [cantidadDe, find_en_primero id ant e post he hant]

theorem cantidadDe_sin_entrada {ν : Type} (id : Int) (c : List (Item ν))
    (h : ∀ x ∈ c, x.id ≠ id) :
    cantidadDe id c = 0 := by
  simp only [cantidadDe, find_sin_entrada id c h]

/-! ## `quitar` and `vaciar` -/

/-- C3: for every cart and every id that has an entry in it, `quitar(id)` succeeds and acts on
the first entry `e` with that id, the cart being `ant ++ e :: post`: if `e.cantidad > 1` the
result is the same sequence with only the `cantidad` of `e` decreased by one; if
`e.cantidad = 1` the result is `ant ++ post`, the sequence without `e`. All other entries keep
their fields, quantities and order. -/
theorem quitar_resta_o_elimina {ν : Type} (A : Aritmetica ν) (id : Int) (s : Estado ν)
    (h : ∃ e ∈ s.carrito, e.id = id) :
    ∃ ant e post, s.carrito = ant ++ e :: post ∧ e.id = id ∧ (∀ x ∈ ant, x.id ≠ id) ∧
      (quitar A id s).1 = .ok () ∧
      (1 < e.cantidad →
        (quitar A id s).2.carrito = ant ++ { e with cantidad := e.cantidad - 1 } :: post) ∧
      (e.cantidad = 1 → (quitar A id s).2.carrito = ant ++ post) := by
  obtain ⟨ant, e, post, hs, he, hant⟩ := partir_por_id id s.carrito h
  refine ⟨ant, e, post, hs, he, hant, ?_, ?_, ?_⟩
  · rw [quitar_en_primero A id s ant e post hs he hant]
  · intro hc
    rw [quitar_en_primero A id s ant e post hs he hant]
    simp [listar, trasQuitar, hc]
  · intro hc
    rw [quitar_en_primero A id s ant e post hs he hant]
    simp [listar, trasQuitar, hc]

/-- The scenario of C3: from the cart with two `mouse` (price 10), `quitar(1)` leaves
`cantidad` 1 and total 10, and `quitar(1)` again leaves the empty cart with both totals 0. -/
theorem quitar_resta_o_elimina_witness :
    (∃ e ∈ estadoDosMouse.carrito, e.id = 1) ∧
    (∃ ant e post, estadoDosMouse.carrito = ant ++ e :: post ∧ e.id = 1 ∧
      (∀ x ∈ ant, x.id ≠ 1) ∧
      (quitar binario64 1 estadoDosMouse).1 = .ok () ∧
      (1 < e.cantidad →
        (quitar binario64 1 estadoDosMouse).2.carrito
          = ant ++ { e with cantidad := e.cantidad - 1 } :: post) ∧
      (e.cantidad = 1 → (quitar binario64 1 estadoDosMouse).2.carrito = ant ++ post)) ∧
    (quitar binario64 1 estadoDosMouse).2.carrito = [{ toProducto := mouse, cantidad := 1 }] ∧
    (quitar binario64 1 estadoDosMouse).2.total = entero 10 ∧
    (quitar binario64 1 (quitar binario64 1 estadoDosMouse).2).2.carrito = [] ∧
    (quitar binario64 1 (quitar binario64 1 estadoDosMouse).2).2.totalProductos = 0 ∧
    (quitar binario64 1 (quitar binario64 1 estadoDosMouse).2).2.total = entero 0 :=
  ⟨⟨{ toProducto := mouse, cantidad := 2 }, by decide, by decide⟩,
    quitar_resta_o_elimina binario64 1 estadoDosMouse
      ⟨{ toProducto := mouse, cantidad := 2 }, by decide, by decide⟩,
    by decide, by decide, by decide, by decide, by decide⟩

/-- C4: for every state, `vaciar()` leaves an empty cart, `totalProductos = 0`, `total = 0`,
and the `carrito` key removed from the storage (absent, not holding an empty list). -/
theorem vaciar_deja_vacio {ν : Type} (A : Aritmetica ν) (s : Estado ν) :
    (vaciar A s).carrito = [] ∧ (vaciar A s).totalProductos = 0 ∧
      (vaciar A s).total = A.cero ∧
      (vaciar A s).almacen = none ∧ (vaciar A s).almacen ≠ some (.json (.lista [])) := by
  simp [vaciar, listar, totales]

/-- C10: for every cart and every id without an entry in it (the empty cart included),
`quitar(id)` fails: `findIndex` yields `-1`, the array has no element at `-1`, and the
`TypeError` of reading its `cantidad` is thrown with the cart, both totals and the storage
exactly as they were. -/
theorem quitar_sin_entrada_falla {ν : Type} (A : Aritmetica ν) (id : Int) (s : Estado ν)
    (h : ∀ e ∈ s.carrito, e.id ≠ id) :
    findIndex (fun producto : Item ν => producto.id == id) s.carrito = -1 ∧
      elemento s.carrito (-1) = none ∧
      quitar A id s = (.error .typeError, s) :=
  ⟨findIndex_ausente _ _ (fun x hx => by simpa using h x hx), by simp [elemento],
    quitar_sin_entrada A id s h⟩

/-- C10 on a cart holding only `mug` (id 2), for the id 1. -/
theorem quitar_sin_entrada_falla_witness :
    (∀ e ∈ estadoTresMug.carrito, e.id ≠ 1) ∧
    findIndex (fun producto : Item Diadico => producto.id == 1) estadoTresMug.carrito = -1 ∧
      elemento estadoTresMug.carrito (-1) = none ∧
      quitar binario64 1 estadoTresMug = (.error .typeError, estadoTresMug) :=
  ⟨by decide, quitar_sin_entrada_falla binario64 1 estadoTresMug (by decide)⟩

/-! ## `agregar` -/

/-- C1: in a cart with at most one entry per id, after `n >= 1` consecutive `agregar(p)` the
cart holds exactly one entry with the id of `p`; the quantity held of that id is the one from
before (`0` if absent) plus `n`; an entry that was present stays at its place with only its
`cantidad` raised by `n`, an entry that was absent is appended at the end with the fields of
`p`, and every other entry is unchanged at its position; `totalProductos` is the sum of the
quantities of the cart from before plus `n`, so it has grown by `n` from its value before. -/
theorem agregar_n_veces {ν : Type} (A : Aritmetica ν) (s : Estado ν) (p : Producto ν) (n : Nat)
    (hunico : (s.carrito.map (fun e => e.id)).Nodup) (hn : 1 ≤ n) :
    ((agregarVeces A n p s).carrito.filter (fun e => e.id == p.id)).length = 1 ∧
    cantidadDe p.id (agregarVeces A n p s).carrito = cantidadDe p.id s.carrito + n ∧
    (∀ ant e post, s.carrito = ant ++ e :: post → e.id = p.id →
      (agregarVeces A n p s).carrito = ant ++ { e with cantidad := e.cantidad + n } :: post) ∧
    ((∀ e ∈ s.carrito, e.id ≠ p.id) →
      (agregarVeces A n p s).carrito = s.carrito ++ [{ toProducto := p, cantidad := n }]) ∧
    (agregarVeces A n p s).totalProductos = sumaCantidades s.carrito + n ∧
    (s.totalProductos = sumaCantidades s.carrito →
      (agregarVeces A n p s).totalProductos = s.totalProductos + n) := by
  have hal : (agregarVeces A n p s).totalProductos
      = sumaCantidades (agregarVeces A n p s).carrito := by
    obtain ⟨m, rfl⟩ : ∃ m, n = m + 1 := ⟨n - 1, by omega⟩
    rw [agregarVeces_succ_fuera]
    exact (agregar_alDia A p _).1
  have htot : (agregarVeces A n p s).totalProductos = sumaCantidades s.carrito + n ∧
      ((agregarVeces A n p s).carrito.filter (fun e => e.id == p.id)).length = 1 ∧
      cantidadDe p.id (agregarVeces A n p s).carrito = cantidadDe p.id s.carrito + n := by
    by_cases hpres : ∃ e ∈ s.carrito, e.id = p.id
    · obtain ⟨ant, e, post, hs, he, hant⟩ := partir_por_id p.id s.carrito hpres
      have hres := agregarVeces_presente A p n s ant e post hs he hant
      have hpost : ∀ x ∈ post, x.id ≠ p.id :=
        (unico_libre p.id ant e post (hs ▸ hunico) he).2
      refine ⟨?_, ?_, ?_⟩
      · rw [hal, hres, hs, sumaCantidades_medio ant e]
        simp
      · rw [hres, filtro_unico p.id ant { e with cantidad := e.cantidad + n } post he hant
          hpost]
        rfl
      · rw [hres, hs, cantidadDe_primero p.id ant { e with cantidad := e.cantidad + n } post
          he hant, cantidadDe_primero p.id ant e post he hant]
    · have hab : ∀ x ∈ s.carrito, x.id ≠ p.id := fun x hx hxid => hpres ⟨x, hx, hxid⟩
      have hres := agregarVeces_ausente A p n s hn hab
      refine ⟨?_, ?_, ?_⟩
      · rw [hal, hres]
        simp [sumaCantidades]
      · rw [hres, filtro_unico p.id s.carrito { toProducto := p, cantidad := n } [] rfl hab
          (by simp)]
        rfl
      · rw [hres, cantidadDe_primero p.id s.carrito { toProducto := p, cantidad := n } [] rfl
          hab, cantidadDe_sin_entrada p.id s.carrito hab]
        simp
  refine ⟨htot.2.1, htot.2.2, ?_, ?_, htot.1, ?_⟩
  · intro ant e post hs he
    exact agregarVeces_presente A p n s ant e post hs he
      (unico_libre p.id ant e post (hs ▸ hunico) he).1
  · intro hab
    exact agregarVeces_ausente A p n s hn hab
  · intro h0
    rw [htot.1, h0]

/-- The scenario of C1: on the empty cart, `agregar(mouse)` twice (id 1, price 10) gives the
single entry with `cantidad` 2, `totalProductos = 2` and `total = 20`; and on the cart with
two `mouse`, three more `agregar(mouse)` raise the entry to `cantidad` 5 and
`totalProductos` from 2 to 5. -/
theorem agregar_n_veces_witness :
    ((estadoVacio.carrito.map (fun e => e.id)).Nodup ∧ 1 ≤ 2 ∧
      (∀ e ∈ estadoVacio.carrito, e.id ≠ mouse.id) ∧
      estadoVacio.totalProductos = sumaCantidades estadoVacio.carrito) ∧
    ((agregarVeces binario64 2 mouse estadoVacio).carrito.filter
      (fun e => e.id == mouse.id)).length = 1 ∧
    cantidadDe mouse.id (agregarVeces binario64 2 mouse estadoVacio).carrito
      = cantidadDe mouse.id estadoVacio.carrito + (2 : Nat) ∧
    (agregarVeces binario64 2 mouse estadoVacio).carrito
      = estadoVacio.carrito ++ [{ toProducto := mouse, cantidad := (2 : Nat) }] ∧
    (agregarVeces binario64 2 mouse estadoVacio).totalProductos
      = estadoVacio.totalProductos + (2 : Nat) ∧
    (agregarVeces binario64 2 mouse estadoVacio).carrito
      = [{ toProducto := mouse, cantidad := 2 }] ∧
    (agregarVeces binario64 2 mouse estadoVacio).totalProductos = 2 ∧
    (agregarVeces binario64 2 mouse estadoVacio).total = entero 20 ∧
    ((estadoDosMouse.carrito.map (fun e => e.id)).Nodup ∧ 1 ≤ 3 ∧
      estadoDosMouse.carrito = [] ++ { toProducto := mouse, cantidad := 2 } :: [] ∧
      estadoDosMouse.totalProductos = sumaCantidades estadoDosMouse.carrito) ∧
    (agregarVeces binario64 3 mouse estadoDosMouse).carrito
      = [] ++ { toProducto := mouse, cantidad := 2 + (3 : Nat) } :: [] ∧
    (agregarVeces binario64 3 mouse estadoDosMouse).totalProductos
      = estadoDosMouse.totalProductos + (3 : Nat) :=
  ⟨⟨by decide, by decide, by decide, by decide⟩,
    (agregar_n_veces binario64 estadoVacio mouse 2 (by decide) (by decide)).1,
    (agregar_n_veces binario64 estadoVacio mouse 2 (by decide) (by decide)).2.1,
    (agregar_n_veces binario64 estadoVacio mouse 2 (by decide) (by decide)).2.2.2.1 (by decide),
    (agregar_n_veces binario64 estadoVacio mouse 2 (by decide) (by decide)).2.2.2.2.2
      (by decide),
    by decide, by decide, by decide,
    ⟨by decide, by decide, rfl, by decide⟩,
    (agregar_n_veces binario64 estadoDosMouse mouse 3 (by decide) (by decide)).2.2.1 []
      { toProducto := mouse, cantidad := 2 } [] rfl rfl,
    (agregar_n_veces binario64 estadoDosMouse mouse 3 (by decide) (by decide)).2.2.2.2.2
      (by decide)⟩

/-- C2: for every cart state whose totals are up to date, its entries being cart entries of
the data model (`cantidad` at least 1), and every product `p`, `agregar(p)` followed
immediately by `quitar(p.id)` succeeds and returns the cart to its prior content and aggregate
values: the entry sequence, `totalProductos` and `total` are the ones from before the
`agregar`, both when `p.id` was absent from the cart and when it was present. -/
theorem agregar_quitar_restituye {ν : Type} (A : Aritmetica ν) (s : Estado ν) (p : Producto ν)
    (hal : AlDia A s) (hq : ∀ e ∈ s.carrito, 1 ≤ e.cantidad) :
    (quitar A p.id (agregar A p s)).1 = .ok () ∧
    (quitar A p.id (agregar A p s)).2.carrito = s.carrito ∧
    (quitar A p.id (agregar A p s)).2.totalProductos = s.totalProductos ∧
    (quitar A p.id (agregar A p s)).2.total = s.total := by
  by_cases hpres : ∃ e ∈ s.carrito, e.id = p.id
  · obtain ⟨ant, e, post, hs, he, hant⟩ := partir_por_id p.id s.carrito hpres
    have hq1 : 1 ≤ e.cantidad := hq e (by simp [hs])
    have h1 : (agregar A p s).carrito
        = ant ++ { e with cantidad := e.cantidad + 1 } :: post := by
      rw [agregar_presente A p s ant e post hs he hant]
      rfl
    have h2 := quitar_en_primero A p.id (agregar A p s) ant
      { e with cantidad := e.cantidad + 1 } post h1 he hant
    have h3 : trasQuitar ant { e with cantidad := e.cantidad + 1 } post = s.carrito := by
      have hgt : e.cantidad + 1 > 1 := by omega
      simp [trasQuitar, hgt, hs]
    rw [h2, h3]
    refine ⟨rfl, ?_, ?_, ?_⟩
    · simp [listar]
    · simp [listar, totales_eq, hal.1]
    · simp [listar, totales_eq, hal.2]
  · have hab : ∀ x ∈ s.carrito, x.id ≠ p.id := fun x hx hxid => hpres ⟨x, hx, hxid⟩
    have h1 : (agregar A p s).carrito
        = s.carrito ++ { toProducto := p, cantidad := 1 } :: [] := by
      rw [agregar_ausente A p s hab]
      rfl
    have h2 := quitar_en_primero A p.id (agregar A p s) s.carrito
      { toProducto := p, cantidad := 1 } [] h1 rfl hab
    have h3 : trasQuitar s.carrito { toProducto := p, cantidad := 1 } [] = s.carrito := by
      simp [trasQuitar]
    rw [h2, h3]
    refine ⟨rfl, ?_, ?_, ?_⟩
    · simp [listar]
    · simp [listar, totales_eq, hal.1]
    · simp [listar, totales_eq, hal.2]

theorem alDia_dosMouse : AlDia binario64 estadoDosMouse := ⟨by decide, by decide⟩

theorem cantidades_dosMouse : ∀ e ∈ estadoDosMouse.carrito, 1 ≤ e.cantidad := by
  intro e he
  have h : e = { toProducto := mouse, cantidad := 2 } := by simpa [estadoDosMouse] using he
  rw [h]
  decide

/-- C2 on the cart with two `mouse`, for `mouse` (entry present) and for `mug` (entry
absent). -/
theorem agregar_quitar_restituye_witness :
    (AlDia binario64 estadoDosMouse ∧ ∀ e ∈ estadoDosMouse.carrito, 1 ≤ e.cantidad) ∧
    ((quitar binario64 mouse.id (agregar binario64 mouse estadoDosMouse)).1 = .ok () ∧
    (quitar binario64 mouse.id (agregar binario64 mouse estadoDosMouse)).2.carrito
      = estadoDosMouse.carrito ∧
    (quitar binario64 mouse.id (agregar binario64 mouse estadoDosMouse)).2.totalProductos
      = estadoDosMouse.totalProductos ∧
    (quitar binario64 mouse.id (agregar binario64 mouse estadoDosMouse)).2.total
      = estadoDosMouse.total) ∧
    ((quitar binario64 mug.id (agregar binario64 mug estadoDosMouse)).1 = .ok () ∧
    (quitar binario64 mug.id (agregar binario64 mug estadoDosMouse)).2.carrito
      = estadoDosMouse.carrito ∧
    (quitar binario64 mug.id (agregar binario64 mug estadoDosMouse)).2.totalProductos
      = estadoDosMouse.totalProductos ∧
    (quitar binario64 mug.id (agregar binario64 mug estadoDosMouse)).2.total
      = estadoDosMouse.total) :=
  ⟨⟨alDia_dosMouse, cantidades_dosMouse⟩,
    agregar_quitar_restituye binario64 estadoDosMouse mouse alDia_dosMouse cantidades_dosMouse,
    agregar_quitar_restituye binario64 estadoDosMouse mug alDia_dosMouse cantidades_dosMouse⟩

/-! ## Well-formed carts -/

theorem bienFormado_reemplazo {ν : Type} (ant : List (Item ν)) (e e2 : Item ν)
    (post : List (Item ν)) (h : BienFormado (ant ++ e :: post)) (hid : e2.id = e.id)
    (hq : 1 ≤ e2.cantidad) :
    BienFormado (ant ++ e2 :: post) := by
  obtain ⟨hu, hc⟩ := h
  constructor
  · simpa [List.map_append, hid] using hu
  · intro x hx
    rcases List.mem_append.mp hx with hx1 | hx2
    · exact hc x (List.mem_append_left _ hx1)
    · rcases List.mem_cons.mp hx2 with rfl | hx3
      · exact hq
      · exact hc x (List.mem_append_right _ (List.mem_cons_of_mem _ hx3))

theorem bienFormado_sin {ν : Type} (ant : List (Item ν)) (e : Item ν) (post : List (Item ν))
    (h : BienFormado (ant ++ e :: post)) : BienFormado (ant ++ post) := by
  obtain ⟨hu, hc⟩ := h
  have hsub : List.Sublist (ant ++ post) (ant ++ e :: post) :=
    List.Sublist.append (List.Sublist.refl ant) (List.sublist_cons_self e post)
  exact ⟨List.Nodup.sublist (List.Sublist.map _ hsub) hu, fun x hx => hc x (hsub.subset hx)⟩

theorem bienFormado_anexa {ν : Type} (c : List (Item ν)) (p : Producto ν)
    (h : BienFormado c) (hab : ∀ x ∈ c, x.id ≠ p.id) :
    BienFormado (c ++ [{ toProducto := p, cantidad := 1 }]) := by
  obtain ⟨hu, hc⟩ := h
  constructor
  · rw [List.map_append, List.nodup_append]
    refine ⟨hu, by simp, ?_⟩
    intro a ha hb
    obtain ⟨x, hx, rfl⟩ := List.mem_map.mp ha
    have : x.id = p.id := by simpa using hb
    exact hab x hx this
  · intro x hx
    rcases List.mem_append.mp hx with hx1 | hx2
    · exact hc x hx1
    · have : x = { toProducto := p, cantidad := 1 } := by simpa using hx2
      rw [this]

theorem agregar_bienFormado {ν : Type} (A : Aritmetica ν) (p : Producto ν) (s : Estado ν)
    (h : BienFormado s.carrito) : BienFormado (agregar A p s).carrito := by
  by_cases hpres : ∃ e ∈ s.carrito, e.id = p.id
  · obtain ⟨ant, e, post, hs, he, hant⟩ := partir_por_id p.id s.carrito hpres
    rw [agregar_presente A p s ant e post hs he hant]
    have hq : 1 ≤ e.cantidad := h.2 e (by simp [hs])
    exact bienFormado_reemplazo ant e { e with cantidad := e.cantidad + 1 } post (hs ▸ h) rfl
      (show (1 : Int) ≤ e.cantidad + 1 by omega)
  · have hab : ∀ x ∈ s.carrito, x.id ≠ p.id := fun x hx hxid => hpres ⟨x, hx, hxid⟩
    rw [agregar_ausente A p s hab]
    exact bienFormado_anexa s.carrito p h hab

theorem quitar_bienFormado {ν : Type} (A : Aritmetica ν) (id : Int) (s : Estado ν)
    (h : BienFormado s.carrito) : BienFormado (quitar A id s).2.carrito := by
  by_cases hpres : ∃ e ∈ s.carrito, e.id = id
  · obtain ⟨ant, e, post, hs, he, hant⟩ := partir_por_id id s.carrito hpres
    rw [quitar_en_primero A id s ant e post hs he hant]
    show BienFormado (trasQuitar ant e post)
    unfold trasQuitar
    split
    · next hgt =>
      exact bienFormado_reemplazo ant e { e with cantidad := e.cantidad - 1 } post (hs ▸ h) rfl
        (show (1 : Int) ≤ e.cantidad - 1 by omega)
    · exact bienFormado_sin ant e post (hs ▸ h)
  · have hab : ∀ x ∈ s.carrito, x.id ≠ id := fun x hx hxid => hpres ⟨x, hx, hxid⟩
    rw [quitar_sin_entrada A id s hab]
    exact h

theorem bienFormado_vacio {ν : Type} : BienFormado ([] : List (Item ν)) := by
  simp [BienFormado]

/-- C9: cart well-formedness (at most one entry per product id, every `cantidad` an integer at
least 1) is preserved by `agregar(p)` for any product, by `quitar(id)` for any id present in
the cart (which succeeds), and by `vaciar()`; hence it holds in every state reachable from an
empty cart. -/
theorem bienFormado_invariante {ν : Type} (A : Aritmetica ν) :
    (∀ s : Estado ν, BienFormado s.carrito →
      (∀ p : Producto ν, BienFormado (agregar A p s).carrito) ∧
      (∀ id : Int, (∃ e ∈ s.carrito, e.id = id) →
        (quitar A id s).1 = .ok () ∧ BienFormado (quitar A id s).2.carrito) ∧
      BienFormado (vaciar A s).carrito) ∧
    (∀ s : Estado ν, Alcanzable A s → BienFormado s.carrito) := by
  constructor
  · intro s h
    refine ⟨fun p => agregar_bienFormado A p s h, ?_, bienFormado_vacio⟩
    intro id hpres
    refine ⟨?_, quitar_bienFormado A id s h⟩
    obtain ⟨ant, e, post, hs, he, hant⟩ := partir_por_id id s.carrito hpres
    rw [quitar_en_primero A id s ant e post hs he hant]
  · intro s hs
    induction hs with
    | vacio s h => rw [h]; exact bienFormado_vacio
    | agregar p s _ ih => exact agregar_bienFormado A p s ih
    | quitar id s _ ih => exact quitar_bienFormado A id s ih
    | vaciar s _ _ => exact bienFormado_vacio

theorem bienFormado_dosMouse : BienFormado estadoDosMouse.carrito :=
  ⟨by decide, cantidades_dosMouse⟩

/-- C9 on the cart with two `mouse`, and on the state reached from the empty cart by two
`agregar(mouse)` and one `quitar(1)`. -/
theorem bienFormado_invariante_witness :
    BienFormado estadoDosMouse.carrito ∧
    (∃ e ∈ estadoDosMouse.carrito, e.id = 1) ∧
    BienFormado (agregar binario64 mug estadoDosMouse).carrito ∧
    ((quitar binario64 1 estadoDosMouse).1 = .ok () ∧
      BienFormado (quitar binario64 1 estadoDosMouse).2.carrito) ∧
    BienFormado (vaciar binario64 estadoDosMouse).carrito ∧
    Alcanzable binario64
      (quitar binario64 1 (agregar binario64 mouse (agregar binario64 mouse estadoVacio))).2 ∧
    BienFormado
      (quitar binario64 1
        (agregar binario64 mouse (agregar binario64 mouse estadoVacio))).2.carrito :=
  ⟨bienFormado_dosMouse,
    ⟨{ toProducto := mouse, cantidad := 2 }, by decide, by decide⟩,
    ((bienFormado_invariante binario64).1 estadoDosMouse bienFormado_dosMouse).1 mug,
    ((bienFormado_invariante binario64).1 estadoDosMouse bienFormado_dosMouse).2.1 1
      ⟨{ toProducto := mouse, cantidad := 2 }, by decide, by decide⟩,
    ((bienFormado_invariante binario64).1 estadoDosMouse bienFormado_dosMouse).2.2,
    Alcanzable.quitar 1 _ (Alcanzable.agregar mouse _
      (Alcanzable.agregar mouse _ (Alcanzable.vacio estadoVacio rfl))),
    (bienFormado_invariante binario64).2 _ (Alcanzable.quitar 1 _ (Alcanzable.agregar mouse _
      (Alcanzable.agregar mouse _ (Alcanzable.vacio estadoVacio rfl))))⟩

/-! ## Construction, totals and storage -/

theorem coherente_guardado {ν : Type} (A : Aritmetica ν) (s : Estado ν) (c : List (Item ν)) :
    Coherente A (listar A { s with carrito := c, almacen := some (.json (.lista c)) }) :=
  ⟨listar_alDia A _, rfl⟩

theorem nuevo_carrito {ν : Type} (A : Aritmetica ν) (a : Almacen ν) (s : Estado ν)
    (h : nuevo A a = .carrito s) :
    ∃ es, leerCarrito a = .ok (.lista es) ∧
      s = listar A { carrito := es, total := A.cero, totalProductos := 0, almacen := a } := by
  unfold nuevo at h
  split at h
  · cases h
  · next es hes =>
    refine ⟨es, hes, ?_⟩
    injection h with h
    exact h.symm
  · cases h
  · cases h
  · cases h

theorem nuevo_de_lista {ν : Type} (A : Aritmetica ν) (a : Almacen ν) (es : List (Item ν))
    (h : leerCarrito a = .ok (.lista es)) :
    nuevo A a
      = .carrito (listar A { carrito := es, total := A.cero, totalProductos := 0, almacen := a })
    := by
  simp only [nuevo, h]

theorem leerCarrito_falso {ν : Type} (v : ValorJson ν) (h : esVerdadero v = false) :
    leerCarrito (some (.json v)) = .ok (.lista []) := by
  simp [leerCarrito, jsonParse, getItem, h]

/-- C5 as stated fails, since `listar` adds the prices as doubles: the constructor, run on a
persisted cart with three `caramelo` (price `0.1`), builds the state `estadoTresCaramelo`,
whose `total` is the double `0.30000000000000004` (`1351079888211149 / 2 ^ 52`), while the sum
of `precio * cantidad` over its entries is `10808639105689191 / 2 ^ 55`; and on the cart with
the prices `2 ^ 53` and `1` the total is `2 ^ 53`, not `2 ^ 53 + 1`. It also fails after the
construction on a persisted non-empty string, which succeeds with the string as `carrito` and
no sums as totals. -/
theorem total_no_es_la_suma :
    nuevo binario64 (some (.json (.lista [{ toProducto := caramelo, cantidad := 3 }])))
      = .carrito estadoTresCaramelo ∧
    estadoTresCaramelo.total = ⟨1351079888211149, -52⟩ ∧
    sumaImportes exacta estadoTresCaramelo.carrito = ⟨10808639105689191, -55⟩ ∧
    estadoTresCaramelo.total ≠ sumaImportes exacta estadoTresCaramelo.carrito ∧
    (listar binario64 ⟨carritoGrande, entero 0, 0, none⟩).total = ⟨1, 53⟩ ∧
    sumaImportes exacta carritoGrande = ⟨9007199254740993, 0⟩ ∧
    nuevo binario64 (some (.json (.texto "abc"))) = .cadena "abc" := by
  decide

/-- C5, amended: totals and storage stay consistent with the cart in the arithmetic of the
program. After a construction on an absent key, a falsy value or a list of cart entries (which
succeeds), after every `agregar`, after every `quitar` that succeeds and after every `vaciar`,
`totalProductos` is the sum of `cantidad` over the entries, `total` is the sum of
`precio * cantidad` over the entries as the arithmetic `A` adds them in cart order from `0`,
and the cart read back from the storage (an absent key reading as the empty cart) is the cart
in memory: the constructor leaves the storage as it found it, `agregar` and `quitar` store the
cart itself, `vaciar` leaves the key absent and the cart empty. -/
theorem totales_y_almacen_coherentes {ν : Type} (A : Aritmetica ν) :
    (∀ (a : Almacen ν) (s : Estado ν), nuevo A a = .carrito s →
      Coherente A s ∧ s.almacen = a) ∧
    (∃ s, nuevo A none = .carrito s) ∧
    (∀ v : ValorJson ν, esVerdadero v = false → ∃ s, nuevo A (some (.json v)) = .carrito s) ∧
    (∀ es : List (Item ν), ∃ s,
      nuevo A (some (.json (.lista es))) = .carrito s ∧ s.carrito = es) ∧
    (∀ (p : Producto ν) (s : Estado ν), Coherente A (agregar A p s) ∧
      (agregar A p s).almacen = some (.json (.lista (agregar A p s).carrito))) ∧
    (∀ (id : Int) (s : Estado ν), (quitar A id s).1 = .ok () →
      Coherente A (quitar A id s).2 ∧
      (quitar A id s).2.almacen = some (.json (.lista (quitar A id s).2.carrito))) ∧
    (∀ s : Estado ν, Coherente A (vaciar A s) ∧ (vaciar A s).almacen = none ∧
      (vaciar A s).carrito = []) := by
  refine ⟨?_, ?_, ?_, ?_, ?_, ?_, ?_⟩
  · intro a s h
    obtain ⟨es, hes, rfl⟩ := nuevo_carrito A a s h
    exact ⟨⟨listar_alDia A _, hes⟩, rfl⟩
  · exact ⟨_, nuevo_de_lista A none [] rfl⟩
  · intro v hv
    exact ⟨_, nuevo_de_lista A _ [] (leerCarrito_falso v hv)⟩
  · intro es
    exact ⟨_, nuevo_de_lista A _ es rfl, rfl⟩
  · intro p s
    unfold agregar
    exact ⟨coherente_guardado A _ _, rfl⟩
  · intro id s h
    rcases quitar_casos A id s with hq | ⟨c, hq⟩
    · rw [hq] at h
      cases h
    · rw [hq]
      exact ⟨coherente_guardado A _ _, rfl⟩
  · intro s
    exact ⟨⟨listar_alDia A _, rfl⟩, rfl, rfl⟩

/-- The scenario of C5: constructing on the persisted cart with three `mug` (id 2, price 5)
gives `totalProductos = 3` and `total = 15`; and `quitar(1)` on the cart with two `mouse`. -/
theorem totales_y_almacen_coherentes_witness :
    nuevo binario64 (some (.json (.lista [{ toProducto := mug, cantidad := 3 }])))
      = .carrito estadoTresMug ∧
    (Coherente binario64 estadoTresMug ∧
      estadoTresMug.almacen = some (.json (.lista [{ toProducto := mug, cantidad := 3 }]))) ∧
    estadoTresMug.totalProductos = 3 ∧ estadoTresMug.total = entero 15 ∧
    (quitar binario64 1 estadoDosMouse).1 = .ok () ∧
    (Coherente binario64 (quitar binario64 1 estadoDosMouse).2 ∧
      (quitar binario64 1 estadoDosMouse).2.almacen
        = some (.json (.lista (quitar binario64 1 estadoDosMouse).2.carrito))) :=
  ⟨by decide, (totales_y_almacen_coherentes binario64).1 _ estadoTresMug (by decide),
    by decide, by decide, rfl,
    (totales_y_almacen_coherentes binario64).2.2.2.2.2.1 1 estadoDosMouse rfl⟩

/-- C8 as stated fails: on a stored text that is not JSON, `JSON.parse` throws a `SyntaxError`
and no `Carrito` is constructed; on a stored object that is not a list, `listar` throws a
`TypeError`; on a stored non-empty string the constructor succeeds, with the string as
`carrito` and not with an empty cart. -/
theorem nuevo_malformado_falla :
    nuevo binario64 (some .ilegible) = .lanza .syntaxError ∧
    nuevo binario64 (some (.json .objeto)) = .lanza .typeError ∧
    nuevo binario64 (some (.json (.texto "abc"))) = .cadena "abc" ∧
    (¬ ∃ s, nuevo binario64 (some .ilegible) = .carrito s) ∧
    (¬ ∃ s, nuevo binario64 (some (.json .objeto)) = .carrito s) ∧
    (¬ ∃ s, nuevo binario64 (some (.json (.texto "abc"))) = .carrito s) := by
  refine ⟨rfl, rfl, by decide, ?_, ?_, ?_⟩
  · rintro ⟨s, hs⟩
    cases hs
  · rintro ⟨s, hs⟩
    cases hs
  · rintro ⟨s, hs⟩
    have h : nuevo binario64 (some (.json (.texto "abc"))) = .cadena "abc" := by decide
    rw [h] at hs
    cases hs

/-- C8, amended: constructing a `Carrito` succeeds with an empty cart, `totalProductos = 0`
and `total = 0`, the storage untouched, when the `carrito` key is absent or holds a falsy JSON
value (`null`, `false`, `0`, the empty string). On a text that is not JSON the constructor
throws a `SyntaxError`; on `true`, a number other than `0` or an object that is not an array
it throws a `TypeError`; on a non-empty string it succeeds with that string as `carrito`. -/
theorem nuevo_sin_carrito_guardado {ν : Type} (A : Aritmetica ν) :
    nuevo A none = .carrito ⟨[], A.cero, 0, none⟩ ∧
    (∀ v : ValorJson ν, esVerdadero v = false →
      nuevo A (some (.json v)) = .carrito ⟨[], A.cero, 0, some (.json v)⟩) ∧
    nuevo A (some .ilegible) = .lanza .syntaxError ∧
    nuevo A (some (.json (.booleano true))) = .lanza .typeError ∧
    nuevo A (some (.json (.numero false))) = .lanza .typeError ∧
    nuevo A (some (.json .objeto)) = .lanza .typeError ∧
    (∀ t : String, t ≠ "" → nuevo A (some (.json (.texto t))) = .cadena t) := by
  refine ⟨rfl, ?_, rfl, rfl, rfl, rfl, ?_⟩
  · intro v hv
    rw [nuevo_de_lista A _ [] (leerCarrito_falso v hv)]
    rfl
  · intro t ht
    simp [nuevo, leerCarrito, jsonParse, getItem, esVerdadero, ht]

/-- C8, amended, on the stored values `null`, the empty string and the string `abc`. -/
theorem nuevo_sin_carrito_guardado_witness :
    (esVerdadero (ValorJson.nulo : ValorJson Diadico) = false ∧
      esVerdadero (ValorJson.texto "" : ValorJson Diadico) = false ∧ "abc" ≠ "") ∧
    nuevo binario64 (some (.json .nulo)) = .carrito ⟨[], entero 0, 0, some (.json .nulo)⟩ ∧
    nuevo binario64 (some (.json (.texto "")))
      = .carrito ⟨[], entero 0, 0, some (.json (.texto ""))⟩ ∧
    nuevo binario64 (some (.json (.texto "abc"))) = .cadena "abc" :=
  ⟨⟨rfl, by decide, by decide⟩,
    (nuevo_sin_carrito_guardado binario64).2.1 .nulo rfl,
    (nuevo_sin_carrito_guardado binario64).2.1 (.texto "") (by decide),
    (nuevo_sin_carrito_guardado binario64).2.2.2.2.2.2 "abc" (by decide)⟩

/-! ## Search by name -/

theorem toNat_ofNat_lt (n : Nat) (h : n < 0xd800) : (Char.ofNat n).toNat = n := by
  have hv : n.isValidChar := Or.inl h
  simp only [Char.ofNat, hv, dite_true, Char.ofNatAux, Char.toNat]
  simp [UInt32.toNat]

theorem minuscula_minuscula (c : Char) : minuscula (minuscula c) = minuscula c := by
  unfold minuscula
  by_cases h : (65 ≤ c.toNat ∧ c.toNat ≤ 90) ∨ (192 ≤ c.toNat ∧ c.toNat ≤ 222 ∧ c.toNat ≠ 215)
  · have h2 : (Char.ofNat (c.toNat + 32)).toNat = c.toNat + 32 :=
      toNat_ofNat_lt _ (by omega)
    have h3 : ¬ ((65 ≤ c.toNat + 32 ∧ c.toNat + 32 ≤ 90) ∨
        (192 ≤ c.toNat + 32 ∧ c.toNat + 32 ≤ 222 ∧ c.toNat + 32 ≠ 215)) := by omega
    simp only [h, if_true, h2, h3, if_false]
  · simp only [h, if_false]

/-- A lowering that works character by character with an idempotent table leaves every
fragment of a lowered text unchanged. -/
theorem fragmento_fijo (tabla : Char → Char) (htabla : ∀ c, tabla (tabla c) = tabla c)
    (s x : String) (h : includes ⟨s.data.map tabla⟩ x = true) :
    (⟨x.data.map tabla⟩ : String) = x := by
  have hin : x.data <:+: s.data.map tabla := by
    simpa [includes] using h
  have hfix : ∀ c ∈ x.data, tabla c = c := by
    intro c hc
    obtain ⟨d, _, rfl⟩ := List.mem_map.mp (hin.subset hc)
    exact htabla d
  have hmap : x.data.map tabla = x.data := by
    conv_rhs => rw [← List.map_id x.data]
    exact List.map_congr_left hfix
  rw [hmap]

theorem minusculas_fragmento (s x : String) (h : includes (minusculas s) x = true) :
    minusculas x = x :=
  fragmento_fijo minuscula minuscula_minuscula s x h

theorem includes_vacio (s : String) : includes s "" = true := by
  have h : ([] : List Char) <:+: s.data := ⟨[], s.data, by simp⟩
  simp [includes, h]

theorem mem_registrosPorNombre {ν : Type} (toLowerCase : String → String) (bd : BaseDeDatos ν)
    (x : String) (p : Producto ν) :
    p ∈ registrosPorNombre toLowerCase bd x ↔
      p ∈ bd.productos ∧ includes (toLowerCase p.nombre) x = true := by
  simp [registrosPorNombre, List.mem_filter]

/-- C6, the code at the failing input: on the scenario catalogue `registrosPorNombre("M")`
returns nothing, although the name `Mouse` includes `M` as it is written and when letter case
is ignored; the search box, which lowers its input first, finds it. -/
theorem registrosPorNombre_mayusculas :
    registrosPorNombre minusculas catalogo "M" = [] ∧
    mouse ∈ catalogo.productos ∧
    includes mouse.nombre "M" = true ∧
    includes (minusculas mouse.nombre) (minusculas "M") = true ∧
    mouse ∉ registrosPorNombre minusculas catalogo "M" ∧
    mouse ∈ buscar minusculas catalogo "M" := by
  decide

/-- C7: `registrosPorNombre("")` is the entire catalogue, and for every `x` the result of
`registrosPorNombre(x)` is a subsequence of the catalogue, in catalogue order, whose every
element has a name containing `x` when letter case is ignored. The method is a pure function
of the catalogue, which it leaves as it is. The lowering `toLowerCase` is any function that
leaves the fragments of a lowered text unchanged, as `String.prototype.toLowerCase` does. -/
theorem registrosPorNombre_subconjunto {ν : Type} (toLowerCase : String → String)
    (hfijo : ∀ s x : String, includes (toLowerCase s) x = true → toLowerCase x = x)
    (bd : BaseDeDatos ν) :
    registrosPorNombre toLowerCase bd "" = bd.productos ∧
    ∀ x : String, List.Sublist (registrosPorNombre toLowerCase bd x) bd.productos ∧
      ∀ p ∈ registrosPorNombre toLowerCase bd x,
        includes (toLowerCase p.nombre) (toLowerCase x) = true := by
  refine ⟨?_, fun x => ⟨?_, ?_⟩⟩
  · simp [registrosPorNombre, includes_vacio]
  · exact List.filter_sublist _
  · intro p hp
    have h := ((mem_registrosPorNombre toLowerCase bd x p).mp hp).2
    rw [hfijo p.nombre x h]
    exact h

/-- C7 on the catalogue with the accented name, for the argument `café`, and on the scenario
catalogue for the empty argument. -/
theorem registrosPorNombre_subconjunto_witness :
    (∀ s x : String, includes (minusculas s) x = true → minusculas x = x) ∧
    registrosPorNombre minusculas catalogoCafe "café" = [cafe] ∧
    registrosPorNombre minusculas catalogo "" = catalogo.productos ∧
    List.Sublist (registrosPorNombre minusculas catalogoCafe "café") catalogoCafe.productos ∧
    includes (minusculas cafe.nombre) (minusculas "café") = true :=
  ⟨minusculas_fragmento, by decide,
    (registrosPorNombre_subconjunto minusculas minusculas_fragmento catalogo).1,
    ((registrosPorNombre_subconjunto minusculas minusculas_fragmento catalogoCafe).2 "café").1,
    ((registrosPorNombre_subconjunto minusculas minusculas_fragmento catalogoCafe).2 "café").2
      cafe (by decide)⟩

end Tienda
